import Mathlib

/-!
Verification development for the Lightning payment path-finder of this
repository (`electrum/lnrouter.py`), as a shallow embedding in Lean 4.

Modelling conventions:
* `NodeId` (33-byte public key) and `ShortChannelID` (8-byte channel id) are
  opaque identifiers compared lexicographically; both are modelled as `Nat`
  (fixed-width byte strings under lexicographic order embed monotonically
  into `Nat`).
* Python `float('inf')` distances are modelled as `WithTop ℕ`; finite float
  arithmetic (the true division `/` in the CLTV penalty term
  `cltv_expiry_delta * payment_amt_msat * 15 / 1_000_000_000`) is modelled as
  exact arithmetic in fixed point, multiplying every cost through by
  `COST_SCALE = 10^9` (the scaling the spec itself suggests in section 9:
  "may be computed in integer fixed-point by multiplying through").  Scaling
  by a positive constant is strictly monotone and linear, so every comparison
  the search performs on distances (the priority order, the staleness
  equality test and the relaxation test) is preserved exactly, and distances
  are consumed only through such comparisons.
* The graph read interface (`channel_db.py` is not among the sources; only its
  callers are) is modelled from the spec, section 4.B: a snapshot with a finite
  channel list, per-direction policy lookup and node-info lookup, with the
  caller's local channels already merged into the snapshot.  The caller's
  liquidity side-table (`my_channels` with `can_pay` / `can_receive`) is kept
  separate, as in `get_distances`.
* The unbounded Python loops (`get_distances`' main loop, `get_path`'s
  backtracking loop) are written with an explicit fuel parameter; `none`
  means the iteration bound was exhausted.
* Python `assert` statements are modelled as no-ops (a failing assert aborts
  the Python search, returning nothing; dropping them only enlarges the set
  of modelled behaviours, which is conservative for the universally
  quantified claims below).
-/

namespace LNRouter

abbrev NodeId := Nat
abbrev SCID := Nat

/-- `lnutil.NUM_MAX_HOPS_IN_PAYMENT_PATH = 20`. -/
def NUM_MAX_HOPS_IN_PAYMENT_PATH : Nat := 20

/-- `lnutil.NUM_MAX_EDGES_IN_PAYMENT_PATH = NUM_MAX_HOPS_IN_PAYMENT_PATH`. -/
def NUM_MAX_EDGES_IN_PAYMENT_PATH : Nat := NUM_MAX_HOPS_IN_PAYMENT_PATH

/-- `lnutil.NBLOCK_CLTV_EXPIRY_TOO_FAR_INTO_FUTURE = 28 * 144`. -/
def NBLOCK_CLTV_EXPIRY_TOO_FAR_INTO_FUTURE : Nat := 28 * 144

/-- Directional channel policy (`channel_db.Policy`); fields are exactly the
ones `lnrouter.py` reads, types per spec section 3. -/
structure Policy where
  fee_base_msat : Nat
  fee_proportional_millionths : Nat
  cltv_expiry_delta : Nat
  htlc_minimum_msat : Nat
  htlc_maximum_msat : Option Nat
  disabled : Bool

/-- `Policy.is_disabled()`. -/
def Policy.is_disabled (p : Policy) : Bool := p.disabled

/-- Undirected channel record (`channel_db.ChannelInfo`), spec section 3. -/
structure ChannelInfo where
  node1_id : NodeId
  node2_id : NodeId
  capacity_sat : Option Nat

/-- Node record; only the feature bitfield is read (`node_info.features`). -/
structure NodeInfoT where
  features : Nat

/-- Liquidity view of one of the caller's own channels (`lnchannel.Channel`
as used by `get_distances`: `can_pay` / `can_receive` at `check_frozen=True`). -/
structure MyChannel where
  can_pay : Nat → Bool
  can_receive : Nat → Bool

/-- Modelled from the spec: `channel_db.py` is not among the sources; this is
the `ChannelGraph` read interface of spec section 4.B.  A snapshot holds a
finite association list of channels (the caller's local channels merged in,
per spec section 4.C/9), a per-`(scid, source node)` policy lookup and a
node-info lookup. -/
structure ChannelDB where
  channels : List (SCID × ChannelInfo)
  policy : SCID → NodeId → Option Policy
  nodeinfo : NodeId → Option NodeInfoT

/-- Association-list lookup keyed by an identifier (`dict` access). -/
def lookupById {α : Type} : List (Nat × α) → Nat → Option α
  | [], _ => none
  | (k, v) :: rest, key => if k = key then some v else lookupById rest key

/-- Modelled from the spec (section 4.B): `channel_info(scid)`. -/
def ChannelDB.get_channel_info (db : ChannelDB) (short_channel_id : SCID) : Option ChannelInfo :=
  lookupById db.channels short_channel_id

/-- Modelled from the spec (section 4.B): `neighbors(node)`, all channels
incident to `node`. -/
def ChannelDB.get_channels_for_node (db : ChannelDB) (node_id : NodeId) : List SCID :=
  (db.channels.filter
    (fun p => p.2.node1_id = node_id ∨ p.2.node2_id = node_id)).map Prod.fst

/-- Modelled from the spec (section 4.B): the policy published by
`node_id` for `short_channel_id`. -/
def ChannelDB.get_policy_for_node (db : ChannelDB) (short_channel_id : SCID)
    (node_id : NodeId) : Option Policy :=
  db.policy short_channel_id node_id

/-- Modelled from the spec (section 4.B): `node_info(node)`. -/
def ChannelDB.get_node_info_for_node_id (db : ChannelDB) (node_id : NodeId) : Option NodeInfoT :=
  db.nodeinfo node_id

/-- `lnrouter.fee_for_edge_msat` (BOLT-07 fee; `//` is truncating division on
nonnegative integers, i.e. `Nat` division). -/
def fee_for_edge_msat (forwarded_amount_msat fee_base_msat fee_proportional_millionths : Nat) :
    Nat :=
  fee_base_msat + forwarded_amount_msat * fee_proportional_millionths / 1000000

/-- `lnrouter.is_fee_sane`. -/
def is_fee_sane (fee_msat : Nat) (payment_amount_msat : Nat) : Bool :=
  if fee_msat ≤ 5000 then true
  else if 100 * fee_msat ≤ payment_amount_msat then true
  else false

/-- `lnrouter.RouteEdge`. -/
structure RouteEdge where
  node_id : NodeId
  short_channel_id : SCID
  fee_base_msat : Nat
  fee_proportional_millionths : Nat
  cltv_expiry_delta : Nat
  node_features : Nat

/-- `RouteEdge.fee_for_edge`. -/
def RouteEdge.fee_for_edge (e : RouteEdge) (amount_msat : Nat) : Nat :=
  fee_for_edge_msat amount_msat e.fee_base_msat e.fee_proportional_millionths

/-- `RouteEdge.from_channel_policy` (the `ShortChannelID.normalize` call is the
identity on already-normalized ids, which `SCID` models). -/
def RouteEdge.from_channel_policy (channel_policy : Policy) (short_channel_id : SCID)
    (end_node : NodeId) (node_info : Option NodeInfoT) : RouteEdge :=
  ⟨end_node, short_channel_id, channel_policy.fee_base_msat,
    channel_policy.fee_proportional_millionths, channel_policy.cltv_expiry_delta,
    match node_info with
    | some ni => ni.features
    | none => 0⟩

/-- `RouteEdge.is_sane_to_use`. -/
def RouteEdge.is_sane_to_use (e : RouteEdge) (amount_msat : Nat) : Bool :=
  if 14 * 144 < e.cltv_expiry_delta then false
  else is_fee_sane (e.fee_for_edge amount_msat) amount_msat

/-- The backward fee/CLTV accumulation loop inside `is_route_sane_to_use`:
fold over the edge list the loop iterates, threading `amt` and `cltv`;
`none` models the early `return False` when an edge is not sane to use. -/
def routeSaneLoop : List RouteEdge → Nat → Nat → Option (Nat × Nat)
  | [], amt, cltv => some (amt, cltv)
  | route_edge :: rest, amt, cltv =>
    if route_edge.is_sane_to_use amt = false then none
    else routeSaneLoop rest (amt + route_edge.fee_for_edge amt)
      (cltv + route_edge.cltv_expiry_delta)

/-- `lnrouter.is_route_sane_to_use`; the Python loop runs over
`reversed(route[1:])`, i.e. `(route.drop 1).reverse`. -/
def is_route_sane_to_use (route : List RouteEdge) (invoice_amount_msat : Nat)
    (min_final_cltv_expiry : Nat) : Bool :=
  if NUM_MAX_EDGES_IN_PAYMENT_PATH < route.length then false
  else
    match routeSaneLoop ((route.drop 1).reverse) invoice_amount_msat min_final_cltv_expiry with
    | none => false
    | some (amt, cltv) =>
      let total_fee := amt - invoice_amount_msat
      if NBLOCK_CLTV_EXPIRY_TOO_FAR_INTO_FUTURE < cltv then false
      else is_fee_sane total_fee invoice_amount_msat

/-- The route accumulation exactly as the spec words it ("walking backward
from last-but-one edge to first ... the last edge's fee is not added"):
identical to `is_route_sane_to_use` except that the loop runs over
`route.dropLast.reverse` instead of `(route.drop 1).reverse`.  Written from
the spec's words, to be compared with the source's function. -/
def is_route_sane_to_use_specLastDropped (route : List RouteEdge) (invoice_amount_msat : Nat)
    (min_final_cltv_expiry : Nat) : Bool :=
  if NUM_MAX_EDGES_IN_PAYMENT_PATH < route.length then false
  else
    match routeSaneLoop (route.dropLast.reverse) invoice_amount_msat min_final_cltv_expiry with
    | none => false
    | some (amt, cltv) =>
      let total_fee := amt - invoice_amount_msat
      if NBLOCK_CLTV_EXPIRY_TOO_FAR_INTO_FUTURE < cltv then false
      else is_fee_sane total_fee invoice_amount_msat

/-- The route accumulation walking backward from the last edge down to the
second; the first edge's fee and CLTV delta are the ones not added.  Written
independently of the source's `reversed(route[1:])` (it walks
`route.reverse.dropLast`), to state the amended claim C2 against. -/
def is_route_sane_to_use_skipFirst (route : List RouteEdge) (invoice_amount_msat : Nat)
    (min_final_cltv_expiry : Nat) : Bool :=
  if NUM_MAX_EDGES_IN_PAYMENT_PATH < route.length then false
  else
    match routeSaneLoop (route.reverse.dropLast) invoice_amount_msat min_final_cltv_expiry with
    | none => false
    | some (amt, cltv) =>
      let total_fee := amt - invoice_amount_msat
      if NBLOCK_CLTV_EXPIRY_TOO_FAR_INTO_FUTURE < cltv then false
      else is_fee_sane total_fee invoice_amount_msat

namespace LNPathFinder

/-- All heuristic costs are in fixed point, scaled by `10^9`, so that the CLTV
penalty term `cltv_expiry_delta * payment_amt_msat * 15 / 1_000_000_000` is
represented exactly as an integer (cf. spec section 9 on computing it "in
integer fixed-point by multiplying through"). -/
def COST_SCALE : Nat := 1000000000

/-- `LNPathFinder._edge_cost`.  Returns `(heuristic_cost, fee_for_edge_msat)`;
`⊤` models `float('inf')` (edge inadmissible), and finite costs carry the
`COST_SCALE` fixed-point scaling. -/
def edge_cost (db : ChannelDB) (short_channel_id : SCID) (start_node : NodeId)
    (end_node : NodeId) (payment_amt_msat : Nat) (ignore_costs : Bool)
    (is_mine : Bool) : WithTop Nat × Nat :=
  match db.get_channel_info short_channel_id with
  | none => (⊤, 0)
  | some channel_info =>
    match db.get_policy_for_node short_channel_id start_node with
    | none => (⊤, 0)
    | some channel_policy =>
      if channel_policy.is_disabled = true then (⊤, 0)
      else if payment_amt_msat < channel_policy.htlc_minimum_msat then (⊤, 0)
      else if (match channel_info.capacity_sat with
               | some capacity_sat => decide (capacity_sat < payment_amt_msat / 1000)
               | none => false) = true then (⊤, 0)
      else if (match channel_policy.htlc_maximum_msat with
               | some htlc_maximum_msat => decide (htlc_maximum_msat < payment_amt_msat)
               | none => false) = true then (⊤, 0)
      else
        let node_info := db.get_node_info_for_node_id end_node
        let route_edge := RouteEdge.from_channel_policy channel_policy short_channel_id
          end_node node_info
        if route_edge.is_sane_to_use payment_amt_msat = false then (⊤, 0)
        else
          let base_cost : Nat := 500 * COST_SCALE
          if ignore_costs = true then ((base_cost : WithTop Nat), 0)
          else
            let fee_msat := route_edge.fee_for_edge payment_amt_msat
            let cltv_cost : Nat :=
              route_edge.cltv_expiry_delta * payment_amt_msat * 15
            (((base_cost + fee_msat * COST_SCALE + cltv_cost : Nat) : WithTop Nat), fee_msat)

/-- A priority-queue element: `(dist_to_edge_endnode, amount_msat, edge_endnode)`.
"order of fields (in tuple) matters" — entries compare lexicographically. -/
abbrev Entry := WithTop Nat × Nat × NodeId

/-- Lexicographic strict order on queue entries, as Python compares the
`(float, int, bytes)` tuples. -/
def entryLt (a b : Entry) : Bool :=
  decide (a.1 < b.1) ||
    (decide (a.1 = b.1) &&
      (decide (a.2.1 < b.2.1) || (decide (a.2.1 = b.2.1) && decide (a.2.2 < b.2.2))))

/-- Pop the least entry from the queue (`queue.PriorityQueue.get`): returns
the minimum entry and the remaining entries, or `none` on an empty queue. -/
def popMin : List Entry → Option (Entry × List Entry)
  | [] => none
  | e :: rest =>
    match popMin rest with
    | none => some (e, [])
    | some (m, rest2) => if entryLt m e = true then some (m, e :: rest2) else some (e, rest)

/-- The mutable state of `get_distances`' search: `distance_from_start`
(a `defaultdict` with default `float('inf')`), `prev_node`, and the
priority queue contents. -/
structure SearchState where
  dist : NodeId → WithTop Nat
  prev : NodeId → Option (NodeId × SCID)
  queue : List Entry

/-- The endpoint of `channel_info` other than `edge_endnode`
(`channel_info.node2_id if channel_info.node1_id == edge_endnode else
channel_info.node1_id`). -/
def otherEndpoint (channel_info : ChannelInfo) (edge_endnode : NodeId) : NodeId :=
  if channel_info.node1_id = edge_endnode then channel_info.node2_id
  else channel_info.node1_id

/-- The `my_channels` liquidity gate of `get_distances`: for the caller's own
channels, `can_pay` when the payment leaves via `nodeA`, `can_receive`
otherwise; non-local channels pass. -/
def liquidityOk (my_channels : List (SCID × MyChannel)) (nodeA : Option NodeId)
    (edge_startnode : NodeId) (amount_msat : Nat) (edge_channel_id : SCID) : Bool :=
  match lookupById my_channels edge_channel_id with
  | none => true
  | some chan =>
    if nodeA = some edge_startnode then chan.can_pay amount_msat
    else chan.can_receive amount_msat

/-- `ignore_costs=(edge_startnode == nodeA) if nodeA else False`. -/
def ignoreCostsFlag (nodeA : Option NodeId) (edge_startnode : NodeId) : Bool :=
  match nodeA with
  | some a => decide (edge_startnode = a)
  | none => false

/-- Body of the `for edge_channel_id in ...get_channels_for_node(...)` loop of
`get_distances`: relax one candidate channel out of `edge_endnode` at the
popped amount, possibly updating distance/predecessor and pushing an entry. -/
def relaxChannel (db : ChannelDB) (my_channels : List (SCID × MyChannel))
    (blacklist : List SCID) (nodeA : Option NodeId) (is_source : Bool)
    (edge_endnode : NodeId) (amount_msat : Nat)
    (s : SearchState) (edge_channel_id : SCID) : SearchState :=
  if edge_channel_id ∈ blacklist then s
  else
    match db.get_channel_info edge_channel_id with
    | none => s
    | some channel_info =>
      let edge_startnode := otherEndpoint channel_info edge_endnode
      if liquidityOk my_channels nodeA edge_startnode amount_msat edge_channel_id
          = false then s
      else
        let ec := edge_cost db edge_channel_id
          (if is_source = true then edge_startnode else edge_endnode)
          (if is_source = true then edge_endnode else edge_startnode)
          amount_msat
          (ignoreCostsFlag nodeA edge_startnode)
          (lookupById my_channels edge_channel_id).isSome
        let alt_dist_to_neighbour := s.dist edge_endnode + ec.1
        if alt_dist_to_neighbour < s.dist edge_startnode then
          ⟨fun x => if x = edge_startnode then alt_dist_to_neighbour else s.dist x,
           fun x => if x = edge_startnode then some (edge_endnode, edge_channel_id)
                    else s.prev x,
           s.queue ++ [(alt_dist_to_neighbour, amount_msat + ec.2, edge_startnode)]⟩
        else s

/-- Main loop of `get_distances`, with explicit fuel; `none` means the
iteration bound was exhausted (the Python loop is unbounded). -/
def dijkstraLoop (db : ChannelDB) (my_channels : List (SCID × MyChannel))
    (blacklist : List SCID) (nodeA : Option NodeId) (is_source : Bool) :
    Nat → SearchState → Option (NodeId → Option (NodeId × SCID))
  | 0, _ => none
  | fuel + 1, s =>
    match popMin s.queue with
    | none => some s.prev
    | some ((dist_to_edge_endnode, amount_msat, edge_endnode), rest) =>
      if nodeA = some edge_endnode then some s.prev
      else if dist_to_edge_endnode ≠ s.dist edge_endnode then
        dijkstraLoop db my_channels blacklist nodeA is_source fuel ⟨s.dist, s.prev, rest⟩
      else
        dijkstraLoop db my_channels blacklist nodeA is_source fuel
          ((db.get_channels_for_node edge_endnode).foldl
            (relaxChannel db my_channels blacklist nodeA is_source edge_endnode amount_msat)
            ⟨s.dist, s.prev, rest⟩)

/-- `LNPathFinder.get_distances`: reverse-direction Dijkstra from `nodeB`;
returns the predecessor map. -/
def get_distances (db : ChannelDB) (my_channels : List (SCID × MyChannel))
    (blacklist : List SCID) (nodeA : Option NodeId) (nodeB : NodeId)
    (invoice_amount_msat : Nat) (is_source : Bool) (fuel : Nat) :
    Option (NodeId → Option (NodeId × SCID)) :=
  dijkstraLoop db my_channels blacklist nodeA is_source fuel
    ⟨fun v => if v = nodeB then ((0 : Nat) : WithTop Nat) else ⊤,
     fun _ => none,
     [(((0 : Nat) : WithTop Nat), invoice_amount_msat, nodeB)]⟩

/-- Backtracking loop of `get_path` (`while edge_startnode != nodeB`), with
fuel; the Python loop appends one `(edge_endnode, edge_taken)` pair per step,
which the cons-recursion reproduces. -/
def getPathLoop (prev : NodeId → Option (NodeId × SCID)) (nodeB : NodeId) :
    Nat → NodeId → Option (List (NodeId × SCID))
  | 0, _ => none
  | fuel + 1, edge_startnode =>
    if edge_startnode = nodeB then some []
    else
      match prev edge_startnode with
      | none => none
      | some (edge_endnode, edge_taken) =>
        match getPathLoop prev nodeB fuel edge_endnode with
        | none => none
        | some path => some ((edge_endnode, edge_taken) :: path)

/-- `LNPathFinder.get_path`. -/
def get_path (nodeA nodeB : NodeId) (prev : NodeId → Option (NodeId × SCID))
    (fuel : Nat) : Option (List (NodeId × SCID)) :=
  if (prev nodeA).isNone then none
  else getPathLoop prev nodeB fuel nodeA

/-- `LNPathFinder.find_path_for_payment`. -/
def find_path_for_payment (db : ChannelDB) (my_channels : List (SCID × MyChannel))
    (blacklist : List SCID) (nodeA nodeB : NodeId) (invoice_amount_msat : Nat)
    (fuel : Nat) : Option (List (NodeId × SCID)) :=
  match get_distances db my_channels blacklist (some nodeA) nodeB invoice_amount_msat
      true fuel with
  | none => none
  | some prev => get_path nodeA nodeB prev fuel

/-- The exceptions `create_route_from_path` can raise: the bare
`Exception('cannot create route from None path')` and `NoChannelPolicy(scid)`. -/
inductive CreateRouteError where
  | nonePath : CreateRouteError
  | noChannelPolicy : SCID → CreateRouteError
deriving DecidableEq

/-- The `for node_id, short_channel_id in path` loop of
`create_route_from_path`, threading `prev_node_id`. -/
def createRouteLoop (db : ChannelDB) :
    NodeId → List (NodeId × SCID) → Except CreateRouteError (List RouteEdge)
  | _, [] => Except.ok []
  | prev_node_id, (node_id, short_channel_id) :: rest =>
    match db.get_policy_for_node short_channel_id prev_node_id with
    | none => Except.error (CreateRouteError.noChannelPolicy short_channel_id)
    | some channel_policy =>
      let node_info := db.get_node_info_for_node_id node_id
      match createRouteLoop db node_id rest with
      | Except.error e => Except.error e
      | Except.ok route =>
        Except.ok (RouteEdge.from_channel_policy channel_policy short_channel_id node_id
          node_info :: route)

/-- `LNPathFinder.create_route_from_path`. -/
def create_route_from_path (db : ChannelDB) (path : Option (List (NodeId × SCID)))
    (from_node_id : NodeId) : Except CreateRouteError (List RouteEdge) :=
  match path with
  | none => Except.error CreateRouteError.nonePath
  | some p => createRouteLoop db from_node_id p

end LNPathFinder

/-! Concrete graph snapshots used by counterexamples, failing inputs and
witnesses. -/

/-- A policy with zero fees, zero CLTV delta and no limits. -/
def zeroPolicy : Policy := ⟨0, 0, 0, 0, none, false⟩

/-- B's outgoing policy on channel C2 in the spec's three-node scenario:
`base=1000, ppm=100, cltv=40`. -/
def policyC2B : Policy := ⟨1000, 100, 40, 0, none, false⟩

/-- The spec's three-node linear graph: nodes `A=0, B=1, D=2`; channel `C1=1`
between A and B with zero-fee policies in both directions; channel `C2=2`
between B and D with B's outgoing policy `policyC2B`. -/
def dbThreeNode : ChannelDB :=
  ⟨[(1, ⟨0, 1, none⟩), (2, ⟨1, 2, none⟩)],
   fun scid n =>
     if scid = 1 ∧ (n = 0 ∨ n = 1) then some zeroPolicy
     else if scid = 2 ∧ n = 1 then some policyC2B
     else none,
   fun _ => none⟩

/-- A 22-node chain graph: nodes `0, …, 21`; channel `i` joins nodes `i` and
`i+1` (for `i < 21`) and carries the zero policy in the forward direction. -/
def chainDb : ChannelDB :=
  ⟨(List.range 21).map (fun i => (i, ⟨i, i + 1, none⟩)),
   fun scid n => if scid = n ∧ scid < 21 then some zeroPolicy else none,
   fun _ => none⟩

/-- The only path from node 0 to node 21 in `chainDb`: 21 edges. -/
def chainPath : List (NodeId × SCID) := (List.range 21).map (fun i => (i + 1, i))

/-- A single-channel graph: channel `5` between nodes 1 and 2, whose policy at
node 1 has `cltv_expiry_delta = 144` and zero fees. -/
def dbSingleEdge : ChannelDB :=
  ⟨[(5, ⟨1, 2, none⟩)],
   fun scid n => if scid = 5 ∧ n = 1 then some (⟨0, 0, 144, 0, none, false⟩ : Policy)
     else none,
   fun _ => none⟩

/-- A first route edge carrying a large base fee (500000 msat). -/
def cexEdgeA : RouteEdge := ⟨1, 1, 500000, 0, 0, 0⟩

/-- A last route edge carrying no fee. -/
def cexEdgeB : RouteEdge := ⟨2, 2, 0, 0, 0, 0⟩

/-! Claim theorems. -/

/-- C10: calling `create_route_from_path` with `path = None` raises the plain
`Exception('cannot create route from None path')` — modelled as
`CreateRouteError.nonePath`, distinct from every `NoChannelPolicy(scid)` —
and does not return a route, for every snapshot and `from_node_id`. -/
theorem create_route_none_path_plain_error (db : ChannelDB) (from_node_id : NodeId) :
    LNPathFinder.create_route_from_path db none from_node_id =
      Except.error LNPathFinder.CreateRouteError.nonePath ∧
    ∀ scid : SCID, LNPathFinder.CreateRouteError.nonePath ≠
      LNPathFinder.CreateRouteError.noChannelPolicy scid :=
  ⟨rfl, fun _ h => LNPathFinder.CreateRouteError.noConfusion h⟩

/-- C1 (the code violates the claim): on the 22-node chain graph the code's
own search returns the unique 21-edge path, which exceeds
`NUM_MAX_EDGES_IN_PAYMENT_PATH = 20`; `get_path` never enforces the bound
(the source itself says `FIXME paths cannot be longer than 20 edges`). -/
theorem find_path_chain_exceeds_max_edges :
    LNPathFinder.find_path_for_payment chainDb [] [] 0 21 1000 40 = some chainPath ∧
    chainPath.length = 21 ∧
    NUM_MAX_EDGES_IN_PAYMENT_PATH < chainPath.length := by decide

/-- C2 (counterexample): the claim says the backward accumulation in
`is_route_sane_to_use` skips exactly the LAST edge's fee.  On the concrete
two-edge route `[cexEdgeA, cexEdgeB]` at invoice 1000000 msat the code
accepts the route, while the function written from the claim's words
(accumulating over every edge but the last, i.e. over `route.dropLast`
backward) rejects it: the code is skipping the FIRST edge, not the last. -/
theorem route_sane_last_edge_cex :
    is_route_sane_to_use [cexEdgeA, cexEdgeB] 1000000 0 = true ∧
    is_route_sane_to_use_specLastDropped [cexEdgeA, cexEdgeB] 1000000 0 = false := by decide

/-- Reversing after dropping the head is dropping the last after reversing. -/
theorem reverse_drop_one {α : Type} (l : List α) : (l.drop 1).reverse = l.reverse.dropLast := by
  cases l with
  | nil => rfl
  | cons a t => simp [List.reverse_cons, List.dropLast_concat]

/-- C2 (amended): the backward accumulation in `is_route_sane_to_use` adds
`amt += fee_for_edge(amt)` and `cltv += cltv_expiry_delta` for every edge
except the FIRST edge of the route: it walks backward from the last edge down
to the second, and the first edge's fee and CLTV delta are the ones not
added. -/
theorem route_sane_skips_first_edge (route : List RouteEdge) (invoice_amount_msat : Nat)
    (min_final_cltv_expiry : Nat) :
    is_route_sane_to_use route invoice_amount_msat min_final_cltv_expiry =
      is_route_sane_to_use_skipFirst route invoice_amount_msat min_final_cltv_expiry := by
  unfold is_route_sane_to_use is_route_sane_to_use_skipFirst
  rw [reverse_drop_one]

/-- Helper for C3: with `ignore_costs` set, `_edge_cost` either rejects the
edge (`⊤`) or returns exactly the bare base cost with a zero fee. -/
theorem edge_cost_true_cases (db : ChannelDB) (c : SCID) (s e : NodeId) (amt : Nat)
    (m : Bool) :
    LNPathFinder.edge_cost db c s e amt true m = (⊤, 0) ∨
    LNPathFinder.edge_cost db c s e amt true m =
      (((500 * LNPathFinder.COST_SCALE : Nat) : WithTop Nat), 0) := by
  unfold LNPathFinder.edge_cost
  cases db.get_channel_info c with
  | none => exact Or.inl rfl
  | some info =>
    cases db.get_policy_for_node c s with
    | none => exact Or.inl rfl
    | some pol =>
      dsimp only
      split
      · exact Or.inl rfl
      split
      · exact Or.inl rfl
      split
      · exact Or.inl rfl
      split
      · exact Or.inl rfl
      split
      · exact Or.inl rfl
      · exact Or.inr rfl

/-- C3 (counterexample): for the admissible edge of `dbSingleEdge`
(`cltv_expiry_delta = 144`) at amount 10000000 msat with `ignore_costs` set,
`_edge_cost` returns the bare `BASE_COST` (in fixed point, `500 * COST_SCALE`)
— not, as the claim states, the base cost PLUS the CLTV penalty term
`cltv_expiry_delta * amount * 15 / 1_000_000_000` (in fixed point,
`500 * COST_SCALE + 144 * 10000000 * 15`, a strictly larger value). -/
theorem edge_cost_ignore_costs_cex :
    LNPathFinder.edge_cost dbSingleEdge 5 1 2 10000000 true false =
      (((500 * LNPathFinder.COST_SCALE : Nat) : WithTop Nat), 0) ∧
    (500 * LNPathFinder.COST_SCALE : Nat) ≠
      500 * LNPathFinder.COST_SCALE + 144 * 10000000 * 15 := by decide

/-- C3 (amended): for every admissible edge (finite cost) with `ignore_costs`
set, `_edge_cost` returns exactly `(BASE_COST, 0)`: BOTH the fee term and the
CLTV penalty term are dropped, and the returned fee component is 0. -/
theorem edge_cost_ignore_costs_base_only (db : ChannelDB) (c : SCID) (s e : NodeId)
    (amt : Nat) (m : Bool)
    (h : (LNPathFinder.edge_cost db c s e amt true m).1 ≠ ⊤) :
    LNPathFinder.edge_cost db c s e amt true m =
      (((500 * LNPathFinder.COST_SCALE : Nat) : WithTop Nat), 0) := by
  rcases edge_cost_true_cases db c s e amt m with h1 | h1
  · rw [h1] at h
    simp at h
  · exact h1

/-- A completed run of the main search loop is unchanged by extra fuel. -/
theorem dijkstraLoop_mono (db : ChannelDB) (mc : List (SCID × MyChannel))
    (bl : List SCID) (nodeA : Option NodeId) (is_source : Bool) :
    ∀ fuel1 fuel2 : Nat, ∀ s r,
      LNPathFinder.dijkstraLoop db mc bl nodeA is_source fuel1 s = some r →
      fuel1 ≤ fuel2 →
      LNPathFinder.dijkstraLoop db mc bl nodeA is_source fuel2 s = some r := by
  intro fuel1
  induction fuel1 with
  | zero => intro fuel2 s r h; simp [LNPathFinder.dijkstraLoop] at h
  | succ f ih =>
    intro fuel2 s r h hle
    cases fuel2 with
    | zero => exact absurd hle (by omega)
    | succ f2 =>
      have hf : f ≤ f2 := by omega
      cases hpop : LNPathFinder.popMin s.queue with
      | none =>
        simp only [LNPathFinder.dijkstraLoop, hpop] at h ⊢
        exact h
      | some pr =>
        obtain ⟨⟨d, amt, v⟩, rest⟩ := pr
        simp only [LNPathFinder.dijkstraLoop, hpop] at h ⊢
        by_cases hA : nodeA = some v
        · rw [if_pos hA] at h ⊢
          exact h
        · rw [if_neg hA] at h ⊢
          by_cases hst : d ≠ s.dist v
          · rw [if_pos hst] at h ⊢
            exact ih f2 _ r h hf
          · rw [if_neg hst] at h ⊢
            exact ih f2 _ r h hf

/-- A completed run of the backtracking loop is unchanged by extra fuel. -/
theorem getPathLoop_mono (prev : NodeId → Option (NodeId × SCID)) (nodeB : NodeId) :
    ∀ fuel1 fuel2 : Nat, ∀ x l,
      LNPathFinder.getPathLoop prev nodeB fuel1 x = some l →
      fuel1 ≤ fuel2 →
      LNPathFinder.getPathLoop prev nodeB fuel2 x = some l := by
  intro fuel1
  induction fuel1 with
  | zero => intro fuel2 x l h; simp [LNPathFinder.getPathLoop] at h
  | succ f ih =>
    intro fuel2 x l h hle
    cases fuel2 with
    | zero => exact absurd hle (by omega)
    | succ f2 =>
      have hf : f ≤ f2 := by omega
      simp only [LNPathFinder.getPathLoop] at h ⊢
      by_cases hB : x = nodeB
      · rw [if_pos hB] at h ⊢
        exact h
      · rw [if_neg hB] at h ⊢
        cases hprev : prev x with
        | none =>
          rw [hprev] at h
          simp at h
        | some pr =>
          obtain ⟨y, c⟩ := pr
          rw [hprev] at h
          dsimp only at h ⊢
          cases hrec : LNPathFinder.getPathLoop prev nodeB f y with
          | none =>
            rw [hrec] at h
            simp at h
          | some p =>
            rw [hrec] at h
            rw [ih f2 y p hrec hf]
            exact h

/-- A completed `find_path_for_payment` is unchanged by extra fuel. -/
theorem find_path_mono (db : ChannelDB) (mc : List (SCID × MyChannel)) (bl : List SCID)
    (nodeA nodeB : NodeId) (amt : Nat) :
    ∀ fuel1 fuel2 : Nat, ∀ p,
      LNPathFinder.find_path_for_payment db mc bl nodeA nodeB amt fuel1 = some p →
      fuel1 ≤ fuel2 →
      LNPathFinder.find_path_for_payment db mc bl nodeA nodeB amt fuel2 = some p := by
  intro fuel1 fuel2 p h hle
  unfold LNPathFinder.find_path_for_payment at h ⊢
  cases hgd : LNPathFinder.get_distances db mc bl (some nodeA) nodeB amt true fuel1 with
  | none => rw [hgd] at h; exact absurd h (by simp)
  | some prev =>
    rw [hgd] at h
    have hgd2 : LNPathFinder.get_distances db mc bl (some nodeA) nodeB amt true fuel2 =
        some prev :=
      dijkstraLoop_mono db mc bl (some nodeA) true fuel1 fuel2 _ prev hgd hle
    rw [hgd2]
    unfold LNPathFinder.get_path at h ⊢
    cases hnone : (prev nodeA).isNone with
    | true => simp [hnone] at h
    | false =>
      simp only [hnone, Bool.false_eq_true, if_false] at h ⊢
      exact getPathLoop_mono prev nodeB fuel1 fuel2 nodeA p h hle

/-- C4: on the spec's literal three-node graph, `find_path_for_payment`
from A=0 to D=2 at 1000000 msat returns the path `[(B, C1), (D, C2)]`
(for every sufficient fuel bound), and the backward accumulation over the
resulting route yields the sender amount 1001100 msat (total fee 1100 msat,
total CLTV delta 40). -/
theorem find_path_three_node_scenario (fuel : Nat) (h : 10 ≤ fuel) :
    LNPathFinder.find_path_for_payment dbThreeNode [] [] 0 2 1000000 fuel =
      some [(1, 1), (2, 2)] ∧
    ∃ r, LNPathFinder.create_route_from_path dbThreeNode (some [(1, 1), (2, 2)]) 0 =
        Except.ok r ∧
      routeSaneLoop ((r.drop 1).reverse) 1000000 0 = some (1001100, 40) := by
  refine ⟨find_path_mono dbThreeNode [] [] 0 2 1000000 10 fuel _ (by decide) h, ?_⟩
  exact ⟨[⟨1, 1, 0, 0, 0, 0⟩, ⟨2, 2, 1000, 100, 40, 0⟩], rfl, by decide⟩

/-- C4 (witness): the scenario theorem applied at the concrete fuel bound 10. -/
theorem find_path_three_node_scenario_witness :
    (10 : Nat) ≤ 10 ∧
    (LNPathFinder.find_path_for_payment dbThreeNode [] [] 0 2 1000000 10 =
        some [(1, 1), (2, 2)] ∧
     ∃ r, LNPathFinder.create_route_from_path dbThreeNode (some [(1, 1), (2, 2)]) 0 =
        Except.ok r ∧
      routeSaneLoop ((r.drop 1).reverse) 1000000 0 = some (1001100, 40)) :=
  ⟨by decide, find_path_three_node_scenario 10 (by decide)⟩

/-- Case analysis of one relaxation step: either the state is unchanged, or
one non-blacklisted channel `c` with info `info` relaxes to the other
endpoint `y`, updating distance and predecessor and pushing one entry. -/
theorem relaxChannel_spec (db : ChannelDB) (mc : List (SCID × MyChannel)) (bl : List SCID)
    (nodeA : Option NodeId) (is_source : Bool) (v : NodeId) (amt : Nat)
    (s : LNPathFinder.SearchState) (c : SCID) :
    LNPathFinder.relaxChannel db mc bl nodeA is_source v amt s c = s ∨
    ∃ info y ec,
      db.get_channel_info c = some info ∧
      y = LNPathFinder.otherEndpoint info v ∧
      (y = info.node1_id ∨ y = info.node2_id) ∧
      c ∉ bl ∧
      ec = LNPathFinder.edge_cost db c (if is_source = true then y else v)
        (if is_source = true then v else y) amt
        (LNPathFinder.ignoreCostsFlag nodeA y)
        (lookupById mc c).isSome ∧
      s.dist v + ec.1 < s.dist y ∧
      LNPathFinder.relaxChannel db mc bl nodeA is_source v amt s c =
        ⟨fun x => if x = y then s.dist v + ec.1 else s.dist x,
         fun x => if x = y then some (v, c) else s.prev x,
         s.queue ++ [(s.dist v + ec.1, amt + ec.2, y)]⟩ := by
  unfold LNPathFinder.relaxChannel
  by_cases hbl : c ∈ bl
  · rw [if_pos hbl]
    exact Or.inl rfl
  · rw [if_neg hbl]
    cases hinfo : db.get_channel_info c with
    | none => exact Or.inl rfl
    | some info =>
      dsimp only
      by_cases hsrc : is_source = true <;>
        [simp only [if_pos hsrc]; simp only [if_neg hsrc]] <;>
      · split
        · exact Or.inl rfl
        · split
          · rename_i halt
            refine Or.inr ⟨info, _, _, rfl, rfl, ?_, hbl, rfl, halt, rfl⟩
            unfold LNPathFinder.otherEndpoint
            split
            · exact Or.inr rfl
            · exact Or.inl rfl
          · exact Or.inl rfl

/-- A finite edge cost requires a resolvable policy published by the start
node (the policy lookup precedes every finite branch of `_edge_cost`). -/
theorem edge_cost_policy_isSome (db : ChannelDB) (c : SCID) (sn en : NodeId) (amt : Nat)
    (ig m : Bool) (h : (LNPathFinder.edge_cost db c sn en amt ig m).1 ≠ ⊤) :
    (db.get_policy_for_node c sn).isSome := by
  unfold LNPathFinder.edge_cost at h
  cases hinfo : db.get_channel_info c with
  | none => rw [hinfo] at h; simp at h
  | some info =>
    rw [hinfo] at h
    cases hpol : db.get_policy_for_node c sn with
    | none => rw [hpol] at h; simp at h
    | some pol => simp

/-- One relaxation step preserves "every predecessor edge avoids the
blacklist". -/
theorem relaxChannel_blacklist_inv (db : ChannelDB) (mc : List (SCID × MyChannel))
    (bl : List SCID) (nodeA : Option NodeId) (is_source : Bool) (v : NodeId) (amt : Nat)
    (s : LNPathFinder.SearchState) (c : SCID)
    (hQ : ∀ u pr, s.prev u = some pr → pr.2 ∉ bl) :
    ∀ u pr, (LNPathFinder.relaxChannel db mc bl nodeA is_source v amt s c).prev u = some pr →
      pr.2 ∉ bl := by
  rcases relaxChannel_spec db mc bl nodeA is_source v amt s c with
    h | ⟨info, y, ec, hinfo, hyo, hye, hblm, hec, halt, h⟩
  · rw [h]
    exact hQ
  · rw [h]
    intro u pr hpr
    dsimp only at hpr
    by_cases hu : u = y
    · rw [if_pos hu] at hpr
      cases hpr
      exact hblm
    · rw [if_neg hu] at hpr
      exact hQ u pr hpr

/-- One relaxation step (in the `is_source` direction used by
`find_path_for_payment`) preserves "every predecessor edge has a policy
published by its start node". -/
theorem relaxChannel_policy_inv (db : ChannelDB) (mc : List (SCID × MyChannel))
    (bl : List SCID) (nodeA : Option NodeId) (v : NodeId) (amt : Nat)
    (s : LNPathFinder.SearchState) (c : SCID)
    (hQ : ∀ u w c2, s.prev u = some (w, c2) → (db.get_policy_for_node c2 u).isSome) :
    ∀ u w c2,
      (LNPathFinder.relaxChannel db mc bl nodeA true v amt s c).prev u = some (w, c2) →
      (db.get_policy_for_node c2 u).isSome := by
  rcases relaxChannel_spec db mc bl nodeA true v amt s c with
    h | ⟨info, y, ec, hinfo, hyo, hye, hblm, hec, halt, h⟩
  · rw [h]
    exact hQ
  · rw [h]
    intro u w c2 hpr
    dsimp only at hpr
    by_cases hu : u = y
    · rw [if_pos hu] at hpr
      cases hpr
      have hne : ec.1 ≠ ⊤ := by
        intro htop
        rw [htop, WithTop.add_top] at halt
        exact absurd halt not_top_lt
      rw [hec] at hne
      simp only [if_pos rfl] at hne
      subst hu
      exact edge_cost_policy_isSome db c u v amt _ _ hne
    · rw [if_neg hu] at hpr
      exact hQ u w c2 hpr

/-- The relaxation fold preserves any predicate on the predecessor map that
each single relaxation step preserves. -/
theorem foldl_relax_prev_inv (db : ChannelDB) (mc : List (SCID × MyChannel))
    (bl : List SCID) (nodeA : Option NodeId) (is_source : Bool)
    (Q : (NodeId → Option (NodeId × SCID)) → Prop)
    (hrel : ∀ v amt s c, Q (LNPathFinder.SearchState.prev s) →
      Q ((LNPathFinder.relaxChannel db mc bl nodeA is_source v amt s c).prev)) :
    ∀ (v : NodeId) (amt : Nat) (cs : List SCID) (s : LNPathFinder.SearchState),
      Q s.prev →
      Q ((cs.foldl (LNPathFinder.relaxChannel db mc bl nodeA is_source v amt) s).prev) := by
  intro v amt cs
  induction cs with
  | nil => intro s h; exact h
  | cons c rest ih => intro s h; exact ih _ (hrel v amt s c h)

/-- The main search loop preserves any predicate on the predecessor map that
each relaxation step preserves. -/
theorem dijkstraLoop_prev_inv (db : ChannelDB) (mc : List (SCID × MyChannel))
    (bl : List SCID) (nodeA : Option NodeId) (is_source : Bool)
    (Q : (NodeId → Option (NodeId × SCID)) → Prop)
    (hrel : ∀ v amt s c, Q (LNPathFinder.SearchState.prev s) →
      Q ((LNPathFinder.relaxChannel db mc bl nodeA is_source v amt s c).prev)) :
    ∀ (fuel : Nat) (s : LNPathFinder.SearchState) (r : NodeId → Option (NodeId × SCID)),
      LNPathFinder.dijkstraLoop db mc bl nodeA is_source fuel s = some r →
      Q s.prev → Q r := by
  intro fuel
  induction fuel with
  | zero => intro s r h; simp [LNPathFinder.dijkstraLoop] at h
  | succ f ih =>
    intro s r h hQ
    cases hpop : LNPathFinder.popMin s.queue with
    | none =>
      simp only [LNPathFinder.dijkstraLoop, hpop] at h
      cases h
      exact hQ
    | some pr =>
      obtain ⟨⟨d, amt, v⟩, rest⟩ := pr
      simp only [LNPathFinder.dijkstraLoop, hpop] at h
      by_cases hA : nodeA = some v
      · rw [if_pos hA] at h
        cases h
        exact hQ
      · rw [if_neg hA] at h
        by_cases hst : d ≠ s.dist v
        · rw [if_pos hst] at h
          exact ih _ r h hQ
        · rw [if_neg hst] at h
          exact ih _ r h
            (foldl_relax_prev_inv db mc bl nodeA is_source Q hrel v amt _
              ⟨s.dist, s.prev, rest⟩ hQ)

/-- Every pair of a path produced by the backtracking loop is an entry of the
predecessor map. -/
theorem getPathLoop_mem (prev : NodeId → Option (NodeId × SCID)) (nodeB : NodeId) :
    ∀ (fuel : Nat) (x : NodeId) (l : List (NodeId × SCID)),
      LNPathFinder.getPathLoop prev nodeB fuel x = some l →
      ∀ pr ∈ l, ∃ u, prev u = some pr := by
  intro fuel
  induction fuel with
  | zero => intro x l h; simp [LNPathFinder.getPathLoop] at h
  | succ f ih =>
    intro x l h pr hpr
    simp only [LNPathFinder.getPathLoop] at h
    by_cases hB : x = nodeB
    · rw [if_pos hB] at h
      cases h
      simp at hpr
    · rw [if_neg hB] at h
      cases hprev : prev x with
      | none =>
        rw [hprev] at h
        simp at h
      | some pr2 =>
        obtain ⟨y, c⟩ := pr2
        rw [hprev] at h
        dsimp only at h
        cases hrec : LNPathFinder.getPathLoop prev nodeB f y with
        | none =>
          rw [hrec] at h
          simp at h
        | some l2 =>
          rw [hrec] at h
          cases h
          rcases List.mem_cons.mp hpr with hpr1 | hpr1
          · exact ⟨x, by rw [hprev, hpr1]⟩
          · exact ih y l2 hrec pr hpr1

/-- C5: for every graph snapshot, liquidity view, blacklist and query, no
pair of a path returned by `find_path_for_payment` carries a blacklisted
short channel id — blacklisted channels are never traversed. -/
theorem find_path_respects_blacklist (db : ChannelDB) (mc : List (SCID × MyChannel))
    (bl : List SCID) (nodeA nodeB : NodeId) (amt fuel : Nat)
    (p : List (NodeId × SCID))
    (h : LNPathFinder.find_path_for_payment db mc bl nodeA nodeB amt fuel = some p) :
    ∀ pr ∈ p, pr.2 ∉ bl := by
  unfold LNPathFinder.find_path_for_payment at h
  cases hgd : LNPathFinder.get_distances db mc bl (some nodeA) nodeB amt true fuel with
  | none => rw [hgd] at h; simp at h
  | some prev =>
    rw [hgd] at h
    have hQ : ∀ u pr, prev u = some pr → pr.2 ∉ bl :=
      dijkstraLoop_prev_inv db mc bl (some nodeA) true
        (fun pv => ∀ u pr, pv u = some pr → pr.2 ∉ bl)
        (fun v amt2 s c hq => relaxChannel_blacklist_inv db mc bl (some nodeA) true v amt2
          s c hq)
        fuel _ prev hgd (fun u pr hpr => by simp at hpr)
    unfold LNPathFinder.get_path at h
    cases hnone : (prev nodeA).isNone with
    | true => simp [hnone] at h
    | false =>
      simp only [hnone, Bool.false_eq_true, if_false] at h
      intro pr hpr
      obtain ⟨u, hu⟩ := getPathLoop_mem prev nodeB fuel nodeA p h pr hpr
      exact hQ u pr hu

/-- C5 (witness): the blacklist-exclusion theorem applied to the three-node
graph with the unrelated channel 99 blacklisted. -/
theorem find_path_respects_blacklist_witness :
    LNPathFinder.find_path_for_payment dbThreeNode [] [99] 0 2 1000000 10 =
      some [(1, 1), (2, 2)] ∧
    ∀ pr ∈ ([(1, 1), (2, 2)] : List (NodeId × SCID)), pr.2 ∉ ([99] : List SCID) :=
  ⟨by decide,
   fun pr hpr => find_path_respects_blacklist dbThreeNode [] [99] 0 2 1000000 10
     [(1, 1), (2, 2)] (by decide) pr hpr⟩

/-- The predecessor chain reached by the backtracking loop turns into a
route: every hop's policy resolves at its start node, the construction
succeeds, and the projection of the route is the path. -/
theorem createRoute_of_pathLoop (db : ChannelDB) (prev : NodeId → Option (NodeId × SCID))
    (nodeB : NodeId)
    (hpol : ∀ u w c, prev u = some (w, c) → (db.get_policy_for_node c u).isSome) :
    ∀ (fuel : Nat) (x : NodeId) (l : List (NodeId × SCID)),
      LNPathFinder.getPathLoop prev nodeB fuel x = some l →
      ∃ r, LNPathFinder.createRouteLoop db x l = Except.ok r ∧
        l = r.map (fun e => (e.node_id, e.short_channel_id)) := by
  intro fuel
  induction fuel with
  | zero => intro x l h; simp [LNPathFinder.getPathLoop] at h
  | succ f ih =>
    intro x l h
    simp only [LNPathFinder.getPathLoop] at h
    by_cases hB : x = nodeB
    · rw [if_pos hB] at h
      cases h
      exact ⟨[], rfl, rfl⟩
    · rw [if_neg hB] at h
      cases hprev : prev x with
      | none =>
        rw [hprev] at h
        simp at h
      | some pr2 =>
        obtain ⟨y, c⟩ := pr2
        rw [hprev] at h
        dsimp only at h
        cases hrec : LNPathFinder.getPathLoop prev nodeB f y with
        | none =>
          rw [hrec] at h
          simp at h
        | some l2 =>
          rw [hrec] at h
          cases h
          obtain ⟨r, hr, hproj⟩ := ih y l2 hrec
          obtain ⟨pol, hpol2⟩ := Option.isSome_iff_exists.mp (hpol x y c hprev)
          refine ⟨RouteEdge.from_channel_policy pol c y
            (db.get_node_info_for_node_id y) :: r, ?_, ?_⟩
          · simp only [LNPathFinder.createRouteLoop, hpol2, hr]
          · simp only [List.map_cons, ← hproj, RouteEdge.from_channel_policy]

/-- C6: round-trip — for every path returned by `find_path_for_payment` on a
snapshot, `create_route_from_path` on the unchanged snapshot succeeds (no
exception), and the path equals the per-edge `(node_id, short_channel_id)`
projection of the resulting route. -/
theorem find_path_route_roundtrip (db : ChannelDB) (mc : List (SCID × MyChannel))
    (bl : List SCID) (nodeA nodeB : NodeId) (amt fuel : Nat)
    (p : List (NodeId × SCID))
    (h : LNPathFinder.find_path_for_payment db mc bl nodeA nodeB amt fuel = some p) :
    ∃ r, LNPathFinder.create_route_from_path db (some p) nodeA = Except.ok r ∧
      p = r.map (fun e => (e.node_id, e.short_channel_id)) := by
  unfold LNPathFinder.find_path_for_payment at h
  cases hgd : LNPathFinder.get_distances db mc bl (some nodeA) nodeB amt true fuel with
  | none => rw [hgd] at h; simp at h
  | some prev =>
    rw [hgd] at h
    have hQ : ∀ u w c, prev u = some (w, c) → (db.get_policy_for_node c u).isSome :=
      dijkstraLoop_prev_inv db mc bl (some nodeA) true
        (fun pv => ∀ u w c, pv u = some (w, c) → (db.get_policy_for_node c u).isSome)
        (fun v amt2 s c hq => relaxChannel_policy_inv db mc bl (some nodeA) v amt2 s c hq)
        fuel _ prev hgd (fun u w c hpr => by simp at hpr)
    unfold LNPathFinder.get_path at h
    cases hnone : (prev nodeA).isNone with
    | true => simp [hnone] at h
    | false =>
      simp only [hnone, Bool.false_eq_true, if_false] at h
      exact createRoute_of_pathLoop db prev nodeB hQ fuel nodeA p h

/-- C6 (witness): the round-trip theorem applied to the three-node graph. -/
theorem find_path_route_roundtrip_witness :
    ∃ r, LNPathFinder.create_route_from_path dbThreeNode (some [(1, 1), (2, 2)]) 0 =
      Except.ok r ∧
      ([(1, 1), (2, 2)] : List (NodeId × SCID)) =
        r.map (fun e => (e.node_id, e.short_channel_id)) :=
  find_path_route_roundtrip dbThreeNode [] [] 0 2 1000000 10 [(1, 1), (2, 2)] (by decide)

/-- From the `i`-th node of the walk `x :: l.map fst`, the backtracking loop
returns the corresponding suffix of `l` (with some fuel). -/
theorem getPathLoop_drop (prev : NodeId → Option (NodeId × SCID)) (nodeB : NodeId) :
    ∀ (fuel : Nat) (x : NodeId) (l : List (NodeId × SCID)),
      LNPathFinder.getPathLoop prev nodeB fuel x = some l →
      ∀ (i : Nat) (hi : i < (x :: l.map Prod.fst).length),
        ∃ f2, LNPathFinder.getPathLoop prev nodeB f2 ((x :: l.map Prod.fst).get ⟨i, hi⟩) =
          some (l.drop i) := by
  intro fuel
  induction fuel with
  | zero => intro x l h; simp [LNPathFinder.getPathLoop] at h
  | succ f ih =>
    intro x l h i hi
    cases i with
    | zero => exact ⟨f + 1, h⟩
    | succ j =>
      simp only [LNPathFinder.getPathLoop] at h
      by_cases hB : x = nodeB
      · rw [if_pos hB] at h
        cases h
        simp at hi
      · rw [if_neg hB] at h
        cases hprev : prev x with
        | none =>
          rw [hprev] at h
          simp at h
        | some pr2 =>
          obtain ⟨y, c⟩ := pr2
          rw [hprev] at h
          dsimp only at h
          cases hrec : LNPathFinder.getPathLoop prev nodeB f y with
          | none =>
            rw [hrec] at h
            simp at h
          | some l2 =>
            rw [hrec] at h
            cases h
            have hj : j < (y :: l2.map Prod.fst).length := by simpa using hi
            obtain ⟨f2, hf2⟩ := ih y l2 hrec j hj
            exact ⟨f2, hf2⟩

/-- The backtracking loop is deterministic across fuel bounds. -/
theorem getPathLoop_det (prev : NodeId → Option (NodeId × SCID)) (nodeB : NodeId)
    (f1 f2 : Nat) (x : NodeId) (l1 l2 : List (NodeId × SCID))
    (h1 : LNPathFinder.getPathLoop prev nodeB f1 x = some l1)
    (h2 : LNPathFinder.getPathLoop prev nodeB f2 x = some l2) : l1 = l2 := by
  have h1m := getPathLoop_mono prev nodeB f1 (max f1 f2) x l1 h1 (le_max_left _ _)
  have h2m := getPathLoop_mono prev nodeB f2 (max f1 f2) x l2 h2 (le_max_right _ _)
  rw [h1m] at h2m
  exact Option.some.inj h2m

/-- C7: no path returned by `find_path_for_payment` visits the same node
twice — the walk `nodeA` followed by the node ids of the returned pairs has
pairwise distinct entries, for every snapshot, liquidity view, blacklist and
query. -/
theorem find_path_nodes_distinct (db : ChannelDB) (mc : List (SCID × MyChannel))
    (bl : List SCID) (nodeA nodeB : NodeId) (amt fuel : Nat)
    (p : List (NodeId × SCID))
    (h : LNPathFinder.find_path_for_payment db mc bl nodeA nodeB amt fuel = some p) :
    (nodeA :: p.map Prod.fst).Nodup := by
  unfold LNPathFinder.find_path_for_payment at h
  cases hgd : LNPathFinder.get_distances db mc bl (some nodeA) nodeB amt true fuel with
  | none => rw [hgd] at h; simp at h
  | some prev =>
    rw [hgd] at h
    unfold LNPathFinder.get_path at h
    cases hnone : (prev nodeA).isNone with
    | true => simp [hnone] at h
    | false =>
      simp only [hnone, Bool.false_eq_true, if_false] at h
      rw [List.nodup_iff_injective_get]
      intro a b hab
      obtain ⟨i, hi⟩ := a
      obtain ⟨j, hj⟩ := b
      obtain ⟨fi, hfi⟩ := getPathLoop_drop prev nodeB fuel nodeA p h i hi
      obtain ⟨fj, hfj⟩ := getPathLoop_drop prev nodeB fuel nodeA p h j hj
      rw [hab] at hfi
      have hdrop := getPathLoop_det prev nodeB fi fj _ _ _ hfi hfj
      have hlen : p.length - i = p.length - j := by
        rw [← List.length_drop, ← List.length_drop, hdrop]
      have hi2 : i < p.length + 1 := by simpa using hi
      have hj2 : j < p.length + 1 := by simpa using hj
      exact Fin.ext (show i = j by omega)

/-- C7 (witness): the distinctness theorem applied to the path found in the
three-node graph. -/
theorem find_path_nodes_distinct_witness :
    ((0 : NodeId) :: ([(1, 1), (2, 2)] : List (NodeId × SCID)).map Prod.fst).Nodup :=
  find_path_nodes_distinct dbThreeNode [] [] 0 2 1000000 10 [(1, 1), (2, 2)] (by decide)

/-- The `prev_node_id` threaded by `create_route_from_path`: the start node of
hop `i` when walking path `p` from `from_node_id`. -/
def hopStartNode (from_node_id : NodeId) (p : List (NodeId × SCID)) (i : Nat) : NodeId :=
  (from_node_id :: p.map Prod.fst).getD i 0

/-- C8: applied to a non-`None` path, `create_route_from_path` raises
`NoChannelPolicy(scid)` exactly when some hop `(node_id, scid)` has no
resolvable policy published by that hop's start node (the previous node on
the path); the raised `scid` is a failing hop's channel id; and when every
hop's policy resolves, it returns a route and raises nothing. -/
theorem create_route_policy_resolution (db : ChannelDB) (p : List (NodeId × SCID))
    (from_node_id : NodeId) :
    ((∀ i, (hi : i < p.length) →
        (db.get_policy_for_node (p.get ⟨i, hi⟩).2 (hopStartNode from_node_id p i)).isSome) →
      ∃ r, LNPathFinder.create_route_from_path db (some p) from_node_id = Except.ok r) ∧
    (∀ c, LNPathFinder.create_route_from_path db (some p) from_node_id =
        Except.error (LNPathFinder.CreateRouteError.noChannelPolicy c) →
      ∃ i, ∃ hi : i < p.length, (p.get ⟨i, hi⟩).2 = c ∧
        db.get_policy_for_node c (hopStartNode from_node_id p i) = none) ∧
    ((∃ i, ∃ hi : i < p.length,
        db.get_policy_for_node (p.get ⟨i, hi⟩).2 (hopStartNode from_node_id p i) = none) →
      ∃ c, LNPathFinder.create_route_from_path db (some p) from_node_id =
        Except.error (LNPathFinder.CreateRouteError.noChannelPolicy c)) := by
  induction p generalizing from_node_id with
  | nil =>
    refine ⟨fun _ => ⟨[], rfl⟩, fun c hc => ?_, fun hex => ?_⟩
    · simp [LNPathFinder.create_route_from_path, LNPathFinder.createRouteLoop] at hc
    · obtain ⟨i, hi, _⟩ := hex
      exact absurd hi (by simp)
  | cons hd tl ih =>
    obtain ⟨n, c0⟩ := hd
    cases hpol : db.get_policy_for_node c0 from_node_id with
    | none =>
      refine ⟨?_, ?_, ?_⟩
      · intro hall
        have h0 := hall 0 (by simp)
        rw [show hopStartNode from_node_id ((n, c0) :: tl) 0 = from_node_id from rfl] at h0
        rw [show (((n, c0) :: tl).get ⟨0, by simp⟩).2 = c0 from rfl] at h0
        rw [hpol] at h0
        simp at h0
      · intro c hc
        have herr : LNPathFinder.create_route_from_path db (some ((n, c0) :: tl))
            from_node_id =
            Except.error (LNPathFinder.CreateRouteError.noChannelPolicy c0) := by
          simp [LNPathFinder.create_route_from_path, LNPathFinder.createRouteLoop, hpol]
        rw [herr] at hc
        injection hc with hc2
        injection hc2 with hc3
        refine ⟨0, by simp, ?_, ?_⟩
        · rw [← hc3]
          rfl
        · rw [← hc3]
          exact hpol
      · intro _
        exact ⟨c0,
          by simp [LNPathFinder.create_route_from_path, LNPathFinder.createRouteLoop, hpol]⟩
    | some pol =>
      refine ⟨?_, ?_, ?_⟩
      · intro hall
        obtain ⟨r, hr⟩ := (ih n).1 (fun i hi => hall (i + 1) (Nat.succ_lt_succ hi))
        simp only [LNPathFinder.create_route_from_path] at hr
        refine ⟨RouteEdge.from_channel_policy pol c0 n
          (db.get_node_info_for_node_id n) :: r, ?_⟩
        simp only [LNPathFinder.create_route_from_path, LNPathFinder.createRouteLoop,
          hpol, hr]
      · intro c hc
        simp only [LNPathFinder.create_route_from_path, LNPathFinder.createRouteLoop,
          hpol] at hc
        cases hrec : LNPathFinder.createRouteLoop db n tl with
        | error e =>
          rw [hrec] at hc
          dsimp only at hc
          injection hc with heq
          obtain ⟨i, hi, hceq, hnone⟩ := (ih n).2.1 c
            (by simp only [LNPathFinder.create_route_from_path]; rw [hrec, heq])
          exact ⟨i + 1, Nat.succ_lt_succ hi, hceq, hnone⟩
        | ok r =>
          rw [hrec] at hc
          simp at hc
      · intro hex
        obtain ⟨i, hi, hnone⟩ := hex
        cases i with
        | zero =>
          rw [show hopStartNode from_node_id ((n, c0) :: tl) 0 = from_node_id from rfl,
            show (((n, c0) :: tl).get ⟨0, hi⟩).2 = c0 from rfl, hpol] at hnone
          exact absurd hnone (by simp)
        | succ j =>
          obtain ⟨c2, herr⟩ := (ih n).2.2 ⟨j, Nat.lt_of_succ_lt_succ hi, hnone⟩
          simp only [LNPathFinder.create_route_from_path] at herr
          refine ⟨c2, ?_⟩
          simp only [LNPathFinder.create_route_from_path, LNPathFinder.createRouteLoop,
            hpol, herr]

/-- C8 (witness): the policy-resolution theorem's success direction applied
to the three-node graph path. -/
theorem create_route_policy_resolution_witness :
    ∃ r, LNPathFinder.create_route_from_path dbThreeNode (some [(1, 1), (2, 2)]) 0 =
      Except.ok r :=
  (create_route_policy_resolution dbThreeNode [(1, 1), (2, 2)] 0).1 (by decide)

/-- An entry smaller in the lexicographic queue order has a priority that is
no larger. -/
theorem entryLt_le {a b : LNPathFinder.Entry} (h : LNPathFinder.entryLt a b = true) :
    a.1 ≤ b.1 := by
  simp only [LNPathFinder.entryLt, Bool.or_eq_true, Bool.and_eq_true,
    decide_eq_true_eq] at h
  rcases h with h | ⟨h, _⟩
  · exact le_of_lt h
  · exact le_of_eq h

/-- An entry not smaller in the lexicographic queue order has a priority that
is no smaller. -/
theorem entryLt_ge {a b : LNPathFinder.Entry} (h : LNPathFinder.entryLt a b = false) :
    b.1 ≤ a.1 := by
  simp only [LNPathFinder.entryLt, Bool.or_eq_false_iff, Bool.and_eq_false_iff,
    decide_eq_false_iff_not] at h
  exact le_of_not_lt h.1

/-- `popMin` fails exactly on the empty queue. -/
theorem popMin_eq_nil {l : List LNPathFinder.Entry} (h : LNPathFinder.popMin l = none) :
    l = [] := by
  cases l with
  | nil => rfl
  | cons e rest =>
    simp only [LNPathFinder.popMin] at h
    cases hrest : LNPathFinder.popMin rest with
    | none => rw [hrest] at h; simp at h
    | some pr =>
      obtain ⟨m, r2⟩ := pr
      rw [hrest] at h
      dsimp only at h
      by_cases hlt : LNPathFinder.entryLt m e = true
      · rw [if_pos hlt] at h
        simp at h
      · rw [if_neg hlt] at h
        simp at h

/-- `popMin` removes one occurrence of the returned entry. -/
theorem popMin_perm :
    ∀ {l : List LNPathFinder.Entry} {e : LNPathFinder.Entry} {rest : List LNPathFinder.Entry},
      LNPathFinder.popMin l = some (e, rest) → l.Perm (e :: rest) := by
  intro l
  induction l with
  | nil => intro e rest h; simp [LNPathFinder.popMin] at h
  | cons a t ih =>
    intro e rest h
    simp only [LNPathFinder.popMin] at h
    cases hrest : LNPathFinder.popMin t with
    | none =>
      rw [hrest] at h
      dsimp only at h
      cases h
      rw [popMin_eq_nil hrest]
    | some pr =>
      obtain ⟨m, r2⟩ := pr
      rw [hrest] at h
      dsimp only at h
      by_cases hlt : LNPathFinder.entryLt m a = true
      · rw [if_pos hlt] at h
        cases h
        exact ((ih hrest).cons a).trans (List.Perm.swap _ a _)
      · rw [if_neg hlt] at h
        cases h
        exact List.Perm.refl _

/-- The entry returned by `popMin` has minimal priority in the queue. -/
theorem popMin_min :
    ∀ {l : List LNPathFinder.Entry} {e : LNPathFinder.Entry} {rest : List LNPathFinder.Entry},
      LNPathFinder.popMin l = some (e, rest) → ∀ e2 ∈ l, e.1 ≤ e2.1 := by
  intro l
  induction l with
  | nil => intro e rest h; simp [LNPathFinder.popMin] at h
  | cons a t ih =>
    intro e rest h e2 he2
    simp only [LNPathFinder.popMin] at h
    cases hrest : LNPathFinder.popMin t with
    | none =>
      rw [hrest] at h
      dsimp only at h
      cases h
      rw [popMin_eq_nil hrest] at he2
      rcases List.mem_cons.mp he2 with he2 | he2
      · rw [he2]
      · simp at he2
    | some pr =>
      obtain ⟨m, r2⟩ := pr
      rw [hrest] at h
      dsimp only at h
      by_cases hlt : LNPathFinder.entryLt m a = true
      · rw [if_pos hlt] at h
        cases h
        rcases List.mem_cons.mp he2 with he2 | he2
        · rw [he2]; exact entryLt_le hlt
        · exact ih hrest e2 he2
      · rw [if_neg hlt] at h
        cases h
        rcases List.mem_cons.mp he2 with he2 | he2
        · rw [he2]
        · exact le_trans (entryLt_ge (by simpa using hlt)) (ih hrest e2 he2)

/-- All channel endpoints of the snapshot. -/
def nodeEndpoints (db : ChannelDB) : Finset NodeId :=
  db.channels.foldr (fun pr acc => insert pr.2.node1_id (insert pr.2.node2_id acc)) ∅

/-- The nodes the search can ever enqueue: the search root and every channel
endpoint. -/
def searchCandidates (db : ChannelDB) (nodeB : NodeId) : Finset NodeId :=
  insert nodeB (nodeEndpoints db)

/-- A successful association-list lookup yields a member of the list. -/
theorem lookupById_mem {α : Type} :
    ∀ (l : List (Nat × α)) (k : Nat) (v : α), lookupById l k = some v → (k, v) ∈ l := by
  intro l
  induction l with
  | nil => intro k v h; simp [lookupById] at h
  | cons p rest ih =>
    intro k v h
    obtain ⟨k2, v2⟩ := p
    simp only [lookupById] at h
    by_cases hk : k2 = k
    · rw [if_pos hk] at h
      cases h
      rw [hk]
      exact List.mem_cons_self _ _
    · rw [if_neg hk] at h
      exact List.mem_cons_of_mem _ (ih k v h)

/-- Both endpoints of a channel of the snapshot are in `nodeEndpoints`. -/
theorem mem_nodeEndpoints (db : ChannelDB) {c : SCID} {info : ChannelInfo}
    (h : db.get_channel_info c = some info) :
    info.node1_id ∈ nodeEndpoints db ∧ info.node2_id ∈ nodeEndpoints db := by
  have hmem : (c, info) ∈ db.channels := lookupById_mem _ _ _ h
  unfold nodeEndpoints
  generalize db.channels = l at hmem ⊢
  induction l with
  | nil => simp at hmem
  | cons p rest ih =>
    rcases List.mem_cons.mp hmem with he | he
    · rw [← he]
      exact ⟨Finset.mem_insert_self _ _,
        Finset.mem_insert_of_mem (Finset.mem_insert_self _ _)⟩
    · obtain ⟨h1, h2⟩ := ih he
      exact ⟨Finset.mem_insert_of_mem (Finset.mem_insert_of_mem h1),
        Finset.mem_insert_of_mem (Finset.mem_insert_of_mem h2)⟩

/-- Adding at least one base cost to a finite value strictly increases it. -/
theorem wt_lt_add_base {a b : WithTop Nat} (ha : a ≠ ⊤)
    (hb : ((500 * LNPathFinder.COST_SCALE : Nat) : WithTop Nat) ≤ b) : a < a + b := by
  obtain ⟨n, rfl⟩ := WithTop.ne_top_iff_exists.mp ha
  induction b using WithTop.recTopCoe with
  | top =>
    rw [WithTop.add_top]
    exact WithTop.coe_lt_top n
  | coe m =>
    rw [← WithTop.coe_add, WithTop.coe_lt_coe]
    have hm : 500 * LNPathFinder.COST_SCALE ≤ m := WithTop.coe_le_coe.mp hb
    have hpos : 0 < 500 * LNPathFinder.COST_SCALE := by
      norm_num [LNPathFinder.COST_SCALE]
    omega

/-- Every edge cost is `⊤` or at least the base cost. -/
theorem edge_cost_ge_base (db : ChannelDB) (c : SCID) (sn en : NodeId) (amt : Nat)
    (ig m : Bool) :
    ((500 * LNPathFinder.COST_SCALE : Nat) : WithTop Nat) ≤
      (LNPathFinder.edge_cost db c sn en amt ig m).1 := by
  unfold LNPathFinder.edge_cost
  cases db.get_channel_info c with
  | none => exact le_top
  | some info =>
    cases db.get_policy_for_node c sn with
    | none => exact le_top
    | some pol =>
      dsimp only
      split
      · exact le_top
      split
      · exact le_top
      split
      · exact le_top
      split
      · exact le_top
      split
      · exact le_top
      split
      · exact le_refl _
      · exact WithTop.coe_le_coe.mpr
          (le_trans (Nat.le_add_right _ _) (Nat.le_add_right _ _))

/-- Invariant of the main search loop, relating a ghost set `P` of already
processed (finalized) nodes to the queue and the distance map: queued nodes
are candidates, priorities are finite and at least the node's current
distance, entries of one node have pairwise distinct priorities, and the
distances of processed nodes lie below every queued priority — strictly so
for entries of the processed node itself. -/
structure SearchInv (db : ChannelDB) (nodeB : NodeId) (P : Finset NodeId)
    (s : LNPathFinder.SearchState) : Prop where
  inCand : ∀ e ∈ s.queue, e.2.2 ∈ searchCandidates db nodeB
  finitePrio : ∀ e ∈ s.queue, e.1 ≠ ⊤
  geDist : ∀ e ∈ s.queue, s.dist e.2.2 ≤ e.1
  pairDist : s.queue.Pairwise (fun e1 e2 => e1.2.2 = e2.2.2 → e1.1 ≠ e2.1)
  procGt : ∀ v ∈ P, ∀ e ∈ s.queue, e.2.2 = v → s.dist v < e.1
  procLe : ∀ v ∈ P, ∀ e ∈ s.queue, s.dist v ≤ e.1

/-- Invariant carried through the relaxation fold while processing node `v`,
popped non-stale at priority `d`. -/
structure RelaxCtx (db : ChannelDB) (nodeB : NodeId) (P : Finset NodeId) (v : NodeId)
    (d : WithTop Nat) (s : LNPathFinder.SearchState) : Prop where
  inv : SearchInv db nodeB P s
  distv : s.dist v = d
  procBound : ∀ w ∈ P, s.dist w ≤ d
  queueBound : ∀ e ∈ s.queue, d ≤ e.1

/-- One relaxation step preserves the fold invariant: a push targets a
non-processed candidate node at a strictly larger priority. -/
theorem relaxCtx_step (db : ChannelDB) (mc : List (SCID × MyChannel)) (bl : List SCID)
    (nodeA : Option NodeId) (is_source : Bool) (nodeB : NodeId) (P : Finset NodeId)
    (v : NodeId) (d : WithTop Nat) (amt : Nat) (hd : d ≠ ⊤)
    (s : LNPathFinder.SearchState) (c : SCID)
    (h : RelaxCtx db nodeB P v d s) :
    RelaxCtx db nodeB P v d
      (LNPathFinder.relaxChannel db mc bl nodeA is_source v amt s c) := by
  rcases relaxChannel_spec db mc bl nodeA is_source v amt s c with
    heq | ⟨info, y, ec, hinfo, hyo, hye, hblm, hec, halt, heq⟩
  · rw [heq]
    exact h
  · rw [heq]
    have hsv : s.dist v = d := h.distv
    have hcost : ((500 * LNPathFinder.COST_SCALE : Nat) : WithTop Nat) ≤ ec.1 := by
      rw [hec]
      exact edge_cost_ge_base db c _ _ amt _ _
    have hsvne : s.dist v ≠ ⊤ := by rw [hsv]; exact hd
    have hdlt : s.dist v < s.dist v + ec.1 := wt_lt_add_base hsvne hcost
    have hynP : y ∉ P := by
      intro hyP
      have h1 : s.dist y ≤ d := h.procBound y hyP
      rw [← hsv] at h1
      exact absurd (lt_trans hdlt halt) (not_lt.mpr h1)
    have hyv : y ≠ v := by
      intro he
      rw [he] at halt
      exact absurd (lt_trans hdlt halt) (lt_irrefl _)
    refine ⟨⟨?_, ?_, ?_, ?_, ?_, ?_⟩, ?_, ?_, ?_⟩
    · intro e he
      rcases List.mem_append.mp he with he | he
      · exact h.inv.inCand e he
      · have he' : e = (s.dist v + ec.1, amt + ec.2, y) := by simpa using he
        rw [he']
        show y ∈ searchCandidates db nodeB
        rcases hye with h1 | h1 <;> rw [h1]
        · exact Finset.mem_insert_of_mem (mem_nodeEndpoints db hinfo).1
        · exact Finset.mem_insert_of_mem (mem_nodeEndpoints db hinfo).2
    · intro e he
      rcases List.mem_append.mp he with he | he
      · exact h.inv.finitePrio e he
      · have he' : e = (s.dist v + ec.1, amt + ec.2, y) := by simpa using he
        rw [he']
        exact halt.ne_top
    · intro e he
      dsimp only
      rcases List.mem_append.mp he with he | he
      · by_cases hey : e.2.2 = y
        · rw [hey, if_pos rfl]
          have h1 : s.dist e.2.2 ≤ e.1 := h.inv.geDist e he
          rw [hey] at h1
          exact le_trans (le_of_lt halt) h1
        · rw [if_neg hey]
          exact h.inv.geDist e he
      · have he' : e = (s.dist v + ec.1, amt + ec.2, y) := by simpa using he
        rw [he']
        dsimp only
        rw [if_pos rfl]
    · dsimp only
      rw [List.pairwise_append]
      refine ⟨h.inv.pairDist, List.pairwise_singleton _ _, ?_⟩
      intro e1 he1 e2 he2
      have he2' : e2 = (s.dist v + ec.1, amt + ec.2, y) := by simpa using he2
      rw [he2']
      intro hee
      have h1 : s.dist e1.2.2 ≤ e1.1 := h.inv.geDist e1 he1
      rw [hee] at h1
      exact (lt_of_lt_of_le halt h1).ne'
    · intro w hw e he hee
      dsimp only
      rcases List.mem_append.mp he with he | he
      · have hwy : w ≠ y := fun hwy => hynP (hwy ▸ hw)
        rw [if_neg hwy]
        exact h.inv.procGt w hw e he hee
      · have he' : e = (s.dist v + ec.1, amt + ec.2, y) := by simpa using he
        subst hee
        rw [he'] at hw
        dsimp only at hw
        exact absurd hw hynP
    · intro w hw e he
      dsimp only
      have hwy : w ≠ y := fun hwy => hynP (hwy ▸ hw)
      rw [if_neg hwy]
      rcases List.mem_append.mp he with he | he
      · exact h.inv.procLe w hw e he
      · have he' : e = (s.dist v + ec.1, amt + ec.2, y) := by simpa using he
        rw [he']
        exact le_trans (h.procBound w hw) (by rw [← hsv]; exact le_of_lt hdlt)
    · dsimp only
      rw [if_neg (Ne.symm hyv)]
      exact hsv
    · intro w hw
      dsimp only
      rw [if_neg (fun hwy : w = y => hynP (hwy ▸ hw))]
      exact h.procBound w hw
    · intro e he
      rcases List.mem_append.mp he with he | he
      · exact h.queueBound e he
      · have he' : e = (s.dist v + ec.1, amt + ec.2, y) := by simpa using he
        rw [he']
        show d ≤ s.dist v + ec.1
        rw [← hsv]
        exact le_of_lt hdlt

/-- The relaxation fold preserves the fold invariant. -/
theorem relaxCtx_fold (db : ChannelDB) (mc : List (SCID × MyChannel)) (bl : List SCID)
    (nodeA : Option NodeId) (is_source : Bool) (nodeB : NodeId) (P : Finset NodeId)
    (v : NodeId) (d : WithTop Nat) (amt : Nat) (hd : d ≠ ⊤) :
    ∀ (cs : List SCID) (s : LNPathFinder.SearchState),
      RelaxCtx db nodeB P v d s →
      RelaxCtx db nodeB P v d
        (cs.foldl (LNPathFinder.relaxChannel db mc bl nodeA is_source v amt) s) := by
  intro cs
  induction cs with
  | nil => intro s h; exact h
  | cons c rest ih =>
    intro s h
    exact ih _ (relaxCtx_step db mc bl nodeA is_source nodeB P v d amt hd s c h)

/-- One relaxation step grows the queue by at most one entry. -/
theorem relaxChannel_queue_len (db : ChannelDB) (mc : List (SCID × MyChannel))
    (bl : List SCID) (nodeA : Option NodeId) (is_source : Bool) (v : NodeId)
    (amt : Nat) (s : LNPathFinder.SearchState) (c : SCID) :
    (LNPathFinder.relaxChannel db mc bl nodeA is_source v amt s c).queue.length ≤
      s.queue.length + 1 := by
  rcases relaxChannel_spec db mc bl nodeA is_source v amt s c with
    heq | ⟨info, y, ec, _, _, _, _, _, _, heq⟩
  · rw [heq]
    exact Nat.le_succ _
  · rw [heq]
    simp

/-- The relaxation fold grows the queue by at most the channel count. -/
theorem foldl_relax_queue_len (db : ChannelDB) (mc : List (SCID × MyChannel))
    (bl : List SCID) (nodeA : Option NodeId) (is_source : Bool) (v : NodeId)
    (amt : Nat) :
    ∀ (cs : List SCID) (s : LNPathFinder.SearchState),
      ((cs.foldl (LNPathFinder.relaxChannel db mc bl nodeA is_source v amt) s).queue).length ≤
        s.queue.length + cs.length := by
  intro cs
  induction cs with
  | nil => intro s; simp
  | cons c rest ih =>
    intro s
    have h1 := ih (LNPathFinder.relaxChannel db mc bl nodeA is_source v amt s c)
    have h2 := relaxChannel_queue_len db mc bl nodeA is_source v amt s c
    simp only [List.foldl_cons, List.length_cons]
    omega

/-- Popping the queue minimum preserves the search invariant and yields the
minimality, length and distinct-priority facts about the popped entry. -/
theorem searchInv_popped (db : ChannelDB) (nodeB : NodeId) (P : Finset NodeId)
    (s : LNPathFinder.SearchState) (hinv : SearchInv db nodeB P s)
    {e : LNPathFinder.Entry} {rest : List LNPathFinder.Entry}
    (hpop : LNPathFinder.popMin s.queue = some (e, rest)) :
    SearchInv db nodeB P ⟨s.dist, s.prev, rest⟩ ∧ e ∈ s.queue ∧
      (∀ e2 ∈ rest, e.1 ≤ e2.1) ∧ s.queue.length = rest.length + 1 ∧
      (∀ e2 ∈ rest, e2.2.2 = e.2.2 → e.1 ≠ e2.1) := by
  have hperm := popMin_perm hpop
  have hsub : ∀ e2 ∈ rest, e2 ∈ s.queue := fun e2 he2 =>
    hperm.mem_iff.mpr (List.mem_cons_of_mem _ he2)
  have hme : e ∈ s.queue := hperm.mem_iff.mpr (List.mem_cons_self _ _)
  have hsymm : ∀ {e1 e2 : LNPathFinder.Entry},
      (e1.2.2 = e2.2.2 → e1.1 ≠ e2.1) → (e2.2.2 = e1.2.2 → e2.1 ≠ e1.1) :=
    fun hab hq => (hab hq.symm).symm
  have hpw := (List.Perm.pairwise_iff hsymm hperm).mp hinv.pairDist
  obtain ⟨hhead, hrestpw⟩ := List.pairwise_cons.mp hpw
  exact ⟨⟨fun e2 he2 => hinv.inCand e2 (hsub e2 he2),
    fun e2 he2 => hinv.finitePrio e2 (hsub e2 he2),
    fun e2 he2 => hinv.geDist e2 (hsub e2 he2),
    hrestpw,
    fun w hw e2 he2 hee => hinv.procGt w hw e2 (hsub e2 he2) hee,
    fun w hw e2 he2 => hinv.procLe w hw e2 (hsub e2 he2)⟩,
    hme,
    fun e2 he2 => popMin_min hpop e2 (hsub e2 he2),
    by simpa using hperm.length_eq,
    fun e2 he2 hee => hhead e2 he2 hee.symm⟩

/-- Fuel bound sufficient for the search loop from a given state: each
not-yet-processed candidate can be processed at most once, each processing
step pushes at most one entry per channel, and every other step shrinks the
queue. -/
def searchMeasure (db : ChannelDB) (nodeB : NodeId) (P : Finset NodeId)
    (s : LNPathFinder.SearchState) : Nat :=
  (searchCandidates db nodeB \ P).card * (db.channels.length + 1) + s.queue.length + 1

/-- A node's channel list is no longer than the snapshot's channel list. -/
theorem channels_for_node_len (db : ChannelDB) (v : NodeId) :
    (db.get_channels_for_node v).length ≤ db.channels.length := by
  unfold ChannelDB.get_channels_for_node
  rw [List.length_map]
  exact List.length_filter_le _ _

/-- Removing a fresh processed node shrinks the unprocessed-candidate count
by exactly one. -/
theorem sdiff_insert_card {cand P : Finset NodeId} {v : NodeId}
    (hv : v ∈ cand) (hvP : v ∉ P) :
    (cand \ insert v P).card + 1 = (cand \ P).card := by
  have hvmem : v ∈ cand \ P := Finset.mem_sdiff.mpr ⟨hv, hvP⟩
  have hset : cand \ insert v P = (cand \ P).erase v := by
    ext x
    simp only [Finset.mem_sdiff, Finset.mem_insert, Finset.mem_erase]
    tauto
  rw [hset, Finset.card_erase_of_mem hvmem]
  have hpos : 0 < (cand \ P).card := Finset.card_pos.mpr ⟨v, hvmem⟩
  omega

/-- The main search loop completes (does not exhaust its fuel) from any state
satisfying the invariant, given fuel at least the measure. -/
theorem dijkstraLoop_succeeds (db : ChannelDB) (mc : List (SCID × MyChannel))
    (bl : List SCID) (nodeA : Option NodeId) (is_source : Bool) (nodeB : NodeId) :
    ∀ (fuel : Nat) (P : Finset NodeId) (s : LNPathFinder.SearchState),
      SearchInv db nodeB P s → searchMeasure db nodeB P s ≤ fuel →
      (LNPathFinder.dijkstraLoop db mc bl nodeA is_source fuel s).isSome := by
  intro fuel
  induction fuel with
  | zero =>
    intro P s _ hm
    unfold searchMeasure at hm
    omega
  | succ f ih =>
    intro P s hinv hm
    cases hpop : LNPathFinder.popMin s.queue with
    | none => simp [LNPathFinder.dijkstraLoop, hpop]
    | some pr =>
      obtain ⟨⟨d, amt, v⟩, rest⟩ := pr
      simp only [LNPathFinder.dijkstraLoop, hpop]
      by_cases hA : nodeA = some v
      · rw [if_pos hA]
        simp
      · rw [if_neg hA]
        obtain ⟨hinvr, hme, hmin, hlen, hheadne⟩ := searchInv_popped db nodeB P s hinv hpop
        by_cases hst : d ≠ s.dist v
        · rw [if_pos hst]
          apply ih P ⟨s.dist, s.prev, rest⟩ hinvr
          unfold searchMeasure at hm ⊢
          dsimp only at hm ⊢
          omega
        · rw [if_neg hst]
          push_neg at hst
          have hvP : v ∉ P := by
            intro hv
            have hgt := hinv.procGt v hv (d, amt, v) hme rfl
            rw [← hst] at hgt
            exact lt_irrefl _ hgt
          have hvC : v ∈ searchCandidates db nodeB := hinv.inCand _ hme
          have hd : d ≠ ⊤ := hinv.finitePrio _ hme
          have hctx : RelaxCtx db nodeB (insert v P) v d ⟨s.dist, s.prev, rest⟩ := by
            refine ⟨⟨hinvr.inCand, hinvr.finitePrio, hinvr.geDist, hinvr.pairDist,
              ?_, ?_⟩, hst.symm, ?_, hmin⟩
            · intro w hw e he hee
              rcases Finset.mem_insert.mp hw with hw1 | hw1
              · subst hw1
                have hne := hheadne e he hee
                have hle := hmin e he
                show s.dist w < e.1
                rw [← hst]
                exact lt_of_le_of_ne hle hne
              · exact hinvr.procGt w hw1 e he hee
            · intro w hw e he
              rcases Finset.mem_insert.mp hw with hw1 | hw1
              · subst hw1
                show s.dist w ≤ e.1
                rw [← hst]
                exact hmin e he
              · exact hinvr.procLe w hw1 e he
            · intro w hw
              rcases Finset.mem_insert.mp hw with hw1 | hw1
              · subst hw1
                show s.dist w ≤ d
                rw [hst]
              · show s.dist w ≤ d
                exact hinv.procLe w hw1 (d, amt, v) hme
          have hctx2 := relaxCtx_fold db mc bl nodeA is_source nodeB (insert v P) v d amt
            hd (db.get_channels_for_node v) ⟨s.dist, s.prev, rest⟩ hctx
          apply ih (insert v P) _ hctx2.inv
          have hql := foldl_relax_queue_len db mc bl nodeA is_source v amt
            (db.get_channels_for_node v) ⟨s.dist, s.prev, rest⟩
          have hcl := channels_for_node_len db v
          have hcard := sdiff_insert_card hvC hvP
          unfold searchMeasure at hm ⊢
          rw [← hcard, Nat.add_mul, one_mul] at hm
          dsimp only at hm hql ⊢
          omega

/-- C9: `get_distances` terminates for every finite graph snapshot,
liquidity view, blacklist and query — its main loop always exits (the fuel
bound `searchMeasure` suffices), either because the priority queue becomes
empty or because the specified source node is popped. -/
theorem get_distances_terminates (db : ChannelDB) (mc : List (SCID × MyChannel))
    (bl : List SCID) (nodeA : Option NodeId) (nodeB : NodeId) (amt : Nat)
    (is_source : Bool) :
    ∃ fuel, (LNPathFinder.get_distances db mc bl nodeA nodeB amt is_source fuel).isSome := by
  refine ⟨searchMeasure db nodeB ∅
    ⟨fun v => if v = nodeB then ((0 : Nat) : WithTop Nat) else ⊤, fun _ => none,
     [(((0 : Nat) : WithTop Nat), amt, nodeB)]⟩, ?_⟩
  unfold LNPathFinder.get_distances
  apply dijkstraLoop_succeeds db mc bl nodeA is_source nodeB _ ∅
  · refine ⟨?_, ?_, ?_, ?_, ?_, ?_⟩
    · intro e he
      have he' : e = (((0 : Nat) : WithTop Nat), amt, nodeB) := by simpa using he
      rw [he']
      exact Finset.mem_insert_self _ _
    · intro e he
      have he' : e = (((0 : Nat) : WithTop Nat), amt, nodeB) := by simpa using he
      rw [he']
      exact WithTop.coe_ne_top
    · intro e he
      have he' : e = (((0 : Nat) : WithTop Nat), amt, nodeB) := by simpa using he
      rw [he']
      show (if nodeB = nodeB then ((0 : Nat) : WithTop Nat) else ⊤) ≤ _
      rw [if_pos rfl]
    · exact List.pairwise_singleton _ _
    · intro w hw
      exact absurd hw (Finset.not_mem_empty w)
    · intro w hw
      exact absurd hw (Finset.not_mem_empty w)
  · exact le_refl _

/-- C3 (witness): the amended theorem applied at the admissible concrete edge
of `dbSingleEdge`. -/
theorem edge_cost_ignore_costs_base_only_witness :
    (LNPathFinder.edge_cost dbSingleEdge 5 1 2 10000000 true false).1 ≠ ⊤ ∧
    LNPathFinder.edge_cost dbSingleEdge 5 1 2 10000000 true false =
      (((500 * LNPathFinder.COST_SCALE : Nat) : WithTop Nat), 0) :=
  ⟨by decide, edge_cost_ignore_costs_base_only dbSingleEdge 5 1 2 10000000 false (by decide)⟩

end LNRouter
